import Mathlib

/-!
# Portfolio site: component loader, theme toggle and particle-graph animator

A shallow embedding of `src/js/main.js` and `src/terrain_bg.js`.

* The component loader is modelled with an explicit completion order of the
  fetches, so that `Promise.all` is a function of the settled results and of the
  order in which they settle.
* The theme toggle is a small state machine over the storage, the module flag
  `isDarkMode` and the classes that `applyTheme` sets.
* The animator is modelled over an ordered field `F` with a square root
  operation. JavaScript numbers are idealised as exact numbers: rounding of
  the 64-bit floats is outside the model. The generator `mulberry32` is modelled
  exactly (its arithmetic is integer arithmetic on 32-bit patterns).
-/

namespace Portfolio

/-! ## Component loader (`src/js/main.js`, lines 5-35) -/

/-- Outcome of one `fetch(url)`: the promise rejects (network error) or resolves
with a response carrying `ok`, `status`, `statusText` and a text body. -/
inductive FetchResult where
  | networkError (msg : String)
  | response (ok : Bool) (status : Nat) (statusText : String) (body : String)
deriving DecidableEq, Repr

/-- The template literal ``components/${n}.html?v=${version}``. -/
def componentUrl (n : String) (version : Nat) : String :=
  "components/" ++ n ++ ".html?v=" ++ toString version

/-- The async arrow function mapped over `names`: it rejects when the fetch
rejects or when `res.ok` is false, and resolves with `res.text()` otherwise. -/
def fetchComponent (fetch : String → FetchResult) (version : Nat) (n : String) :
    Except String String :=
  let url := componentUrl n version
  match fetch url with
  | .networkError msg => .error msg
  | .response ok status statusText body =>
    if !ok then .error (url ++ " → " ++ toString status ++ " " ++ statusText)
    else .ok body

/-- State of a promise: still pending, fulfilled with a value, or rejected. -/
inductive Settled (ε α : Type) where
  | pending
  | fulfilled (value : α)
  | rejected (reason : ε)
deriving DecidableEq, Repr

/-- The settle events of `Promise.all`, processed in completion order. Event `i`
is the settling of the `i`-th input promise: a rejection rejects the combined
promise at once; a fulfilment stores the value at index `i` and fulfils the
combined promise when every slot is filled. -/
def promiseAllLoop {ε α : Type} (results : List (Except ε α)) :
    List Nat → List (Option α) → Settled ε (List α)
  | [], _ => .pending
  | i :: rest, values =>
    match results[i]? with
    | none => promiseAllLoop results rest values
    | some (.error e) => .rejected e
    | some (.ok v) =>
      let values1 := values.set i (some v)
      if values1.all Option.isSome then .fulfilled values1.reduceOption
      else promiseAllLoop results rest values1

/-- The call `Promise.all(promises)`: an empty input fulfils immediately with
the empty array, otherwise the settle events are processed in `order`. -/
def promiseAll {ε α : Type} (results : List (Except ε α)) (order : List Nat) :
    Settled ε (List α) :=
  if results.isEmpty then .fulfilled []
  else promiseAllLoop results order (List.replicate results.length none)

/-- The markup written by the `catch` branch. -/
def errorNotice : String :=
  "\n          <p style=\"color:red; text-align:center; padding: 2rem;\">\n            Failed to load components from <code>components/</code>.<br>\n            Please run via a local server (not <code>file://</code>) and check file paths.\n          </p>"

/-- The function `loadComponents`, as the list of values it assigns to
`mainContainer.innerHTML`, in order. `mainContainer` is `none` when the element
`#main-content` does not exist. The result is `none` when the awaited
`Promise.all` never settles. -/
def loadComponents (mainContainer : Option String) (names : List String) (version : Nat)
    (fetch : String → FetchResult) (order : List Nat) : Option (List String) :=
  match mainContainer with
  | none => some []
  | some _ =>
    match promiseAll (names.map (fetchComponent fetch version)) order with
    | .pending => none
    | .fulfilled htmls => some [String.join htmls]
    | .rejected _ => some [errorNotice]

/-- Content of the container after a run: the last value assigned, or the
initial content when nothing was assigned. -/
def finalContent (initial : String) (writes : List String) : String :=
  writes.getLast?.getD initial

/-- The constant `names` of `loadComponents`. -/
def names : List String := ["hero", "about", "projects", "skills", "contact", "footer"]

/-! ## Theme toggle (`src/terrain_bg.js`, lines 10-56) -/

/-- The storage `localStorage`, as a map from keys to stored strings. -/
abbrev Storage := String → Option String

/-- The call `localStorage.getItem(key)`. -/
def Storage.getItem (s : Storage) (key : String) : Option String := s key

/-- The call `localStorage.setItem(key, value)`. -/
def Storage.setItem (s : Storage) (key value : String) : Storage :=
  fun k => if k = key then some value else s k

/-- The test `key in localStorage`. -/
def Storage.has (s : Storage) (key : String) : Bool := (s key).isSome

/-- State touched by the theme code: the storage, the module variable
`isDarkMode`, the class `dark` of the root element and the class `hidden` of the
two icons. -/
structure Theme where
  storage : Storage
  isDarkMode : Bool
  rootDark : Bool
  sunHidden : Bool
  moonHidden : Bool

/-- Initial value of `isDarkMode` (lines 10-11). -/
def initialIsDarkMode (storage : Storage) (prefersDark : Bool) : Bool :=
  storage.getItem "color-theme" == some "dark"
    || (!storage.has "color-theme" && prefersDark)

/-- The function `applyTheme(dark)`: `classList.toggle(name, force)` sets the
class exactly when `force` is true. -/
def applyTheme (dark : Bool) (t : Theme) : Theme :=
  { t with rootDark := dark, sunHidden := !dark, moonHidden := dark }

/-- The state after the boot sequence: `isDarkMode` is initialised and
`applyTheme(isDarkMode)` has run. The toggle button carries both icons. -/
def boot (storage : Storage) (prefersDark : Bool) : Theme :=
  let d := initialIsDarkMode storage prefersDark
  applyTheme d
    { storage := storage, isDarkMode := d, rootDark := false, sunHidden := true, moonHidden := false }

/-- The handler `btn.onclick`. -/
def click (t : Theme) : Theme :=
  let d := !t.isDarkMode
  applyTheme d
    { t with isDarkMode := d,
             storage := t.storage.setItem "color-theme" (if d then "dark" else "light") }

/-! ## Concrete inputs used in the evaluations below -/

/-- A server that answers the fragments `a`, `b`, `c` (requested with version 7)
with the bodies `<X/>`, `<Y/>`, `<Z/>` and anything else with a 404. -/
def abcFetch (url : String) : FetchResult :=
  if url = "components/a.html?v=7" then .response true 200 "OK" "<X/>"
  else if url = "components/b.html?v=7" then .response true 200 "OK" "<Y/>"
  else if url = "components/c.html?v=7" then .response true 200 "OK" "<Z/>"
  else .response false 404 "Not Found" ""

/-- The bodies served by `abcFetch`, by fragment name. -/
def abcBody (n : String) : String :=
  if n = "a" then "<X/>" else if n = "b" then "<Y/>" else if n = "c" then "<Z/>" else ""

/-- A server on which fragment `b` is missing: `a` and `c` are served, every
other request is answered with a 404. -/
def acFetch (url : String) : FetchResult :=
  if url = "components/a.html?v=7" then .response true 200 "OK" "<X/>"
  else if url = "components/c.html?v=7" then .response true 200 "OK" "<Z/>"
  else .response false 404 "Not Found" ""

/-- A storage with no entry at all. -/
def emptyStorage : Storage := fun _ => none

/-- A storage holding `light` under the key `color-theme`. -/
def lightStorage : Storage := fun k => if k = "color-theme" then some "light" else none

/-! ## Numbers and vectors of the animator

The animator computes with JavaScript numbers and with `THREE.Vector3`. The
library three.js is loaded from outside the repository; the methods used by
`main.js` are modelled after its `Vector3` class. -/

/-- The operation `Math.sqrt` of the number type. -/
class MathSqrt (F : Type) where
  /-- The square root. -/
  sqrt : F → F

/-- Exactness of `Math.sqrt`: the result is non-negative and squares back to
the argument. -/
class LawfulSqrt (F : Type) [LinearOrderedField F] [MathSqrt F] : Prop where
  sqrt_nonneg : ∀ x : F, 0 ≤ MathSqrt.sqrt x
  sqrt_mul_self : ∀ x : F, 0 ≤ x → MathSqrt.sqrt x * MathSqrt.sqrt x = x

/-- The class `THREE.Vector3`: three coordinates. -/
structure Vector3 (F : Type) where
  x : F
  y : F
  z : F

namespace Vector3

variable {F : Type} [LinearOrderedField F] [MathSqrt F]

/-- The method `multiplyScalar(s)`. -/
def multiplyScalar (a : Vector3 F) (s : F) : Vector3 F := ⟨a.x * s, a.y * s, a.z * s⟩

/-- The method `length()`. -/
def length (a : Vector3 F) : F := MathSqrt.sqrt (a.x * a.x + a.y * a.y + a.z * a.z)

/-- The method `distanceToSquared(v)`. -/
def distanceToSquared (a v : Vector3 F) : F :=
  let dx := a.x - v.x
  let dy := a.y - v.y
  let dz := a.z - v.z
  dx * dx + dy * dy + dz * dz

/-- The method `distanceTo(v)`. -/
def distanceTo (a v : Vector3 F) : F := MathSqrt.sqrt (a.distanceToSquared v)

end Vector3

/-! ## The generator `mulberry32` (`src/js/main.js`, line 109) -/

/-- The nearest 64-bit float of a natural number, ties to even: numbers below
`2^53` are exact, larger ones keep their 53 leading bits. (The closure variable
`seed` is a JavaScript number and is never reduced modulo `2^32`.) -/
def roundToDouble (n : Nat) : Nat :=
  if n < 2 ^ 53 then n
  else
    let e := Nat.log2 n - 52
    let q := n >>> e
    let r := n % 2 ^ e
    let half := 2 ^ (e - 1)
    if r < half then q <<< e
    else if half < r then (q + 1) <<< e
    else if q % 2 = 0 then q <<< e
    else (q + 1) <<< e

/-- The conversion `ToUint32` on non-negative integers; the 32-bit operators
work on this bit pattern. -/
def toUint32 (n : Nat) : Nat := n % 4294967296

/-- The function `Math.imul` on 32-bit patterns: the low 32 bits of the product. -/
def imul (a b : Nat) : Nat := (a * b) % 4294967296

/-- One call of the closure returned by `mulberry32`: the 32-bit numerator of
the returned value and the new content of the closure variable `seed`. -/
def mulberry32 (seed : Nat) : Nat × Nat :=
  let seed1 := roundToDouble (seed + 0x6D2B79F5)
  let t0 := toUint32 seed1
  let t1 := imul (t0 ^^^ (t0 >>> 15)) (t0 ||| 1)
  let t2 := t1 ^^^ toUint32 (t1 + imul (t1 ^^^ (t1 >>> 7)) (t1 ||| 61))
  (toUint32 (t2 ^^^ (t2 >>> 14)), seed1)

/-- One call `rand()`: the numerator divided by `4294967296`, and the new
generator state. -/
def rand (F : Type) [LinearOrderedField F] (seed : Nat) : F × Nat :=
  (((mulberry32 seed).1 : F) / 4294967296, (mulberry32 seed).2)

/-- Generator state after `n` calls of `rand()`. -/
def seedAfter : Nat → Nat → Nat
  | 0, seed => seed
  | n + 1, seed => seedAfter n (mulberry32 seed).2

/-- The value returned by the `n`-th call of `rand()` (counting from 1) of a
generator created by `mulberry32(seed)`. -/
def randNth (F : Type) [LinearOrderedField F] (seed n : Nat) : F :=
  (rand F (seedAfter (n - 1) seed)).1

/-! ## Seeding of the particle graph (`src/js/main.js`, lines 112-121) -/

/-- An entry of the array `nodes`: position and velocity. (The field `mesh`
only mirrors `position` for rendering.) -/
structure Node (F : Type) where
  position : Vector3 F
  velocity : Vector3 F

section Animator

variable {F : Type} [LinearOrderedField F] [MathSqrt F]

/-- The constant `nodeCount`. -/
def nodeCount : Nat := 120

/-- The constant `radius`. -/
def radius : F := 280

/-- The constant `minSep`. -/
def minSep : F := 18

/-- The constant `k`. -/
def k : Nat := 3

/-- The constant `maxEdge`. -/
def maxEdge : F := 120

/-- The function `randInSphere`. Each unit of fuel pays for one round of the
`do ... while` loop; `none` means the fuel ran out before a sample with
`0 < s ≤ 1` was drawn. -/
def randInSphere : Nat → Nat → Option (Vector3 F × Nat)
  | 0, _ => none
  | fuel + 1, seed =>
    let rx := rand F seed
    let ry := rand F rx.2
    let rz := rand F ry.2
    let x := rx.1 * 2 - 1
    let y := ry.1 * 2 - 1
    let z := rz.1 * 2 - 1
    let s := x * x + y * y + z * z
    if s = 0 ∨ s > 1 then randInSphere fuel rz.2
    else
      let len := MathSqrt.sqrt s
      let rr := rand F rz.2
      some ((Vector3.mk (x / len) (y / len) (z / len)).multiplyScalar
        (radius * (0.4 + 0.6 * rr.1)), rr.2)

/-- The function `tooClose`: some node accepted so far is nearer than `minSep`. -/
def tooClose (nodes : List (Node F)) (p : Vector3 F) : Bool :=
  nodes.any fun n => decide (p.distanceTo n.position < minSep)

/-- The loop `while (nodes.length < nodeCount)` of line 117, for a target count
`count`. Each unit of fuel pays for one round; `none` means the fuel ran out. -/
def seedNodes (count : Nat) : Nat → List (Node F) → Nat → Option (List (Node F) × Nat)
  | 0, _, _ => none
  | fuel + 1, nodes, seed =>
    if nodes.length < count then
      match randInSphere fuel seed with
      | none => none
      | some (p, seed1) =>
        if !tooClose nodes p then
          let vx := rand F seed1
          let vy := rand F vx.2
          let vz := rand F vy.2
          seedNodes count fuel
            (nodes ++ [⟨p, ⟨(vx.1 - 0.5) * 0.08, (vy.1 - 0.5) * 0.08, (vz.1 - 0.5) * 0.08⟩⟩])
            vz.2
        else seedNodes count fuel nodes seed1
    else some (nodes, seed)

/-- The array `dists` built for node `i` (line 120): index and distance of every
other node, in index order. -/
def dists (nodes : List (Node F)) (i : Nat) (ni : Node F) : List (Nat × F) :=
  (nodes.enum.filter fun jn => decide (i ≠ jn.1)).map
    fun jn => (jn.1, ni.position.distanceTo jn.2.position)

/-- The call `dists.sort((a,b)=>a[1]-b[1])`: a stable sort by ascending
distance. -/
def sortDists (l : List (Nat × F)) : List (Nat × F) :=
  l.insertionSort fun a b => a.2 ≤ b.2

/-- The inner loop `for (m = 0; m < dists.length && added < k; m++)` of line 121,
from position `m` of the sorted array on, with the current value of `added`. -/
def addEdges (i : Nat) : List (Nat × F) → Nat → List (Nat × Nat)
  | [], _ => []
  | (j, d) :: rest, added =>
    if added < k then
      if d ≤ maxEdge ∧ i < j then (i, j) :: addEdges i rest (added + 1)
      else addEdges i rest added
    else []

/-- The edges pushed during round `i` of the outer loop. -/
def edgesOf (nodes : List (Node F)) (i : Nat) (ni : Node F) : List (Nat × Nat) :=
  addEdges i (sortDists (dists nodes i ni)) 0

/-- The array `edges` after the loop of lines 120-121. -/
def edges (nodes : List (Node F)) : List (Nat × Nat) :=
  nodes.enum.flatMap fun ini => edgesOf nodes ini.1 ini.2

/-- What the host offers when the script runs: the viewport, the last pointer
position and the clock. -/
structure Host (F : Type) where
  innerWidth : F
  innerHeight : F
  clientX : F
  clientY : F
  now : Nat

/-- State of the animator: the camera, the pointer state written by the
`mousemove` handlers, the nodes, the edges and the generator state. -/
structure Animator (F : Type) where
  aspect : F
  cameraX : F
  cameraY : F
  targetX : F
  targetY : F
  cursorWorld : Vector3 F
  hasMouse : Bool
  nodes : List (Node F)
  edges : List (Nat × Nat)
  seed : Nat

/-- The seeding phase (lines 98-138) for a target node count and a generator
seed: the camera is set up from the viewport, the nodes are sampled, the edges
are built, and the pointer state starts empty. -/
def seeding (host : Host F) (count fuel seed : Nat) : Option (Animator F) :=
  match seedNodes count fuel [] seed with
  | none => none
  | some (nodes, seed1) =>
    some
      { aspect := host.innerWidth / host.innerHeight
        cameraX := 0
        cameraY := 0
        targetX := 0
        targetY := 0
        cursorWorld := ⟨0, 0, 0⟩
        hasMouse := false
        nodes := nodes
        edges := edges nodes
        seed := seed1 }

/-! ## The frame update `tick` (`src/js/main.js`, lines 156-185) -/

/-- The contents written to `linePositions` in `tick`: six numbers per edge. -/
def linePositions (a : Animator F) : List F :=
  a.edges.flatMap fun e =>
    match a.nodes[e.1]?, a.nodes[e.2]? with
    | some p, some q =>
      [p.position.x, p.position.y, p.position.z, q.position.x, q.position.y, q.position.z]
    | _, _ => []

end Animator

/-- The real square root as `Math.sqrt`. -/
noncomputable instance realSqrt : MathSqrt ℝ := ⟨Real.sqrt⟩

/-- The real square root is exact. -/
instance realLawfulSqrt : LawfulSqrt ℝ :=
  ⟨Real.sqrt_nonneg, fun _ hx => Real.mul_self_sqrt hx⟩

/-- A node at rest on the first axis. -/
def axisNode (x : ℝ) : Node ℝ := ⟨⟨x, 0, 0⟩, ⟨0, 0, 0⟩⟩

/-- Five nodes on a line: four close together and a fifth one far away, but
within `maxEdge` of the fourth. -/
def lineNodes : List (Node ℝ) :=
  [axisNode 0, axisNode 1, axisNode 2, axisNode 3, axisNode 100]

/-! ## Closed forms used to evaluate the seeding -/

section ClosedForms

variable {F : Type} [LinearOrderedField F] [MathSqrt F]

/-- The value `s` that `randInSphere` computes from three generator values. -/
def sampleSq (a1 a2 a3 : F) : F :=
  (a1 * 2 - 1) * (a1 * 2 - 1) + (a2 * 2 - 1) * (a2 * 2 - 1) + (a3 * 2 - 1) * (a3 * 2 - 1)

/-- The point that `randInSphere` returns for an accepted sample `a1`, `a2`,
`a3` and the radius value `a4`. -/
def spherePoint (a1 a2 a3 a4 : F) : Vector3 F :=
  (Vector3.mk ((a1 * 2 - 1) / MathSqrt.sqrt (sampleSq a1 a2 a3))
      ((a2 * 2 - 1) / MathSqrt.sqrt (sampleSq a1 a2 a3))
      ((a3 * 2 - 1) / MathSqrt.sqrt (sampleSq a1 a2 a3))).multiplyScalar
    (radius * (0.4 + 0.6 * a4))

/-- The initial velocity built from three generator values (line 117). -/
def initialVelocity (b1 b2 b3 : F) : Vector3 F :=
  ⟨(b1 - 0.5) * 0.08, (b2 - 0.5) * 0.08, (b3 - 0.5) * 0.08⟩

/-- The first node sampled from the seed `0xA11CE`: generator calls 1 to 7. -/
def seedNode0 (F : Type) [LinearOrderedField F] [MathSqrt F] : Node F :=
  ⟨spherePoint (3191830399 / 4294967296) (2415238474 / 4294967296)
      (958955856 / 4294967296) (3259582577 / 4294967296),
    initialVelocity (2407230183 / 4294967296) (2496027202 / 4294967296)
      (649707001 / 4294967296)⟩

/-- The second node sampled from the seed `0xA11CE`: after eight rejected
samples, generator calls 32 to 38. -/
def seedNode1 (F : Type) [LinearOrderedField F] [MathSqrt F] : Node F :=
  ⟨spherePoint (763181677 / 4294967296) (1272136629 / 4294967296)
      (829018950 / 4294967296) (3506929025 / 4294967296),
    initialVelocity (605845489 / 4294967296) (3224459417 / 4294967296)
      (3900945789 / 4294967296)⟩

end ClosedForms

/-- Two hosts that differ in viewport, pointer position and clock. -/
def hostA : Host ℝ := ⟨1280, 720, 0, 0, 0⟩

/-- The second host. -/
def hostB : Host ℝ := ⟨375, 812, 120, 300, 1700000000000⟩

theorem all_isSome_iff {α : Type} (values : List (Option α)) :
    values.all Option.isSome = true ↔ ∀ i : Nat, values[i]? ≠ some none := by
  rw [List.all_eq_true]
  constructor
  · intro h i hi
    have hm : (none : Option α) ∈ values := List.mem_iff_getElem?.2 ⟨i, hi⟩
    simpa using h _ hm
  · intro h x hx
    obtain ⟨i, hi⟩ := List.mem_iff_getElem?.1 hx
    cases x with
    | none => exact absurd hi (h i)
    | some v => rfl

theorem getElem?_set_some_none {α : Type} (values : List (Option α)) (j i : Nat) (v : α)
    (h : (values.set j (some v))[i]? = some none) : i ≠ j ∧ values[i]? = some none := by
  by_cases hij : j = i
  · subst hij
    rw [List.getElem?_set_self'] at h
    cases hv : values[j]? with
    | none => simp [hv] at h
    | some w => simp [hv] at h
  · rw [List.getElem?_set_ne hij] at h
    exact ⟨fun e => hij e.symm, h⟩

/-- When every input promise fulfils and every pending slot settles somewhere in
`order`, the loop fulfils with the values in index order. -/
theorem promiseAllLoop_fulfilled {ε α : Type} (vs : List α) :
    ∀ (order : List Nat) (values : List (Option α)),
      values.length = vs.length →
      (∀ (i : Nat) (v : α), values[i]? = some (some v) → vs[i]? = some v) →
      (∀ i : Nat, values[i]? = some none → i ∈ order) →
      (∃ i : Nat, values[i]? = some none) →
      promiseAllLoop (vs.map (Except.ok : α → Except ε α)) order values = .fulfilled vs := by
  intro order
  induction order with
  | nil =>
    intro values _ _ hcov hex
    obtain ⟨i, hi⟩ := hex
    exact absurd (hcov i hi) (by simp)
  | cons j rest ih =>
    intro values hlen hinv hcov hex
    unfold promiseAllLoop
    by_cases hj : j < vs.length
    · have hr : (vs.map (Except.ok : α → Except ε α))[j]? = some (.ok vs[j]) := by
        simp [List.getElem?_map, List.getElem?_eq_getElem hj]
      rw [hr]
      have hinv1 : ∀ (i : Nat) (v : α), (values.set j (some vs[j]))[i]? = some (some v) → vs[i]? = some v := by
        intro i v hi
        by_cases hij : j = i
        · subst hij
          rw [List.getElem?_set_self (by omega)] at hi
          simp only [Option.some.injEq] at hi
          rw [List.getElem?_eq_getElem hj, hi]
        · rw [List.getElem?_set_ne hij] at hi
          exact hinv i v hi
      have hlen1 : (values.set j (some vs[j])).length = vs.length := by simpa using hlen
      by_cases hall : (values.set j (some vs[j])).all Option.isSome = true
      · simp only [hall, if_true]
        congr 1
        have hm : values.set j (some vs[j]) = vs.map some := by
          apply List.ext_getElem?
          intro i
          by_cases hi : i < vs.length
          · have hlt : i < (values.set j (some vs[j])).length := by omega
            rw [List.getElem?_eq_getElem hlt, List.getElem?_map, List.getElem?_eq_getElem hi]
            cases hx : (values.set j (some vs[j]))[i] with
            | none =>
              exact absurd (by rw [List.getElem?_eq_getElem hlt, hx])
                ((all_isSome_iff _).1 hall i)
            | some w =>
              have := hinv1 i w (by rw [List.getElem?_eq_getElem hlt, hx])
              rw [List.getElem?_eq_getElem hi] at this
              simpa using this.symm
          · rw [List.getElem?_eq_none (by omega), List.getElem?_eq_none (by simp; omega)]
        rw [hm]
        simp [List.reduceOption]
      · simp only [hall, Bool.false_eq_true, if_false]
        apply ih _ hlen1 hinv1
        · intro i hi
          obtain ⟨hne, hv⟩ := getElem?_set_some_none _ _ _ _ hi
          have := hcov i hv
          simp only [List.mem_cons] at this
          rcases this with h | h
          · exact absurd h hne
          · exact h
        · by_contra hno
          apply hall
          rw [all_isSome_iff]
          intro i hi
          exact hno ⟨i, hi⟩
    · have hr : (vs.map (Except.ok : α → Except ε α))[j]? = none := by
        simp [List.getElem?_eq_none]; omega
      rw [hr]
      apply ih _ hlen hinv _ hex
      intro i hi
      have := hcov i hi
      simp only [List.mem_cons] at this
      rcases this with h | h
      · subst h
        have : i < values.length := by
          by_contra hc
          rw [List.getElem?_eq_none (by omega)] at hi
          exact absurd hi (by simp)
        omega
      · exact h

/-- When some input promise rejects and its settle event occurs in `order`, the
loop rejects: it cannot fulfil before, because that slot is never filled. -/
theorem promiseAllLoop_rejected {ε α : Type} (results : List (Except ε α)) (f : Nat) (e : ε)
    (hf : results[f]? = some (.error e)) :
    ∀ (order : List Nat) (values : List (Option α)),
      values[f]? = some none → f ∈ order →
      ∃ r, promiseAllLoop results order values = .rejected r := by
  intro order
  induction order with
  | nil => intro values _ hmem; exact absurd hmem (by simp)
  | cons j rest ih =>
    intro values hv hmem
    unfold promiseAllLoop
    cases hr : results[j]? with
    | none =>
      simp only
      apply ih _ hv
      simp only [List.mem_cons] at hmem
      rcases hmem with h | h
      · subst h; rw [hr] at hf; exact absurd hf (by simp)
      · exact h
    | some r =>
      cases r with
      | error e1 => exact ⟨e1, rfl⟩
      | ok v =>
        have hne : j ≠ f := by
          intro h; subst h; rw [hr] at hf; simp at hf
        have hv1 : (values.set j (some v))[f]? = some none := by
          rw [List.getElem?_set_ne hne]; exact hv
        have hall : ¬ (values.set j (some v)).all Option.isSome = true := by
          intro h
          exact (all_isSome_iff _).1 h f hv1
        simp only [hall, Bool.false_eq_true, if_false]
        apply ih _ hv1
        simp only [List.mem_cons] at hmem
        rcases hmem with h | h
        · exact absurd h.symm hne
        · exact h

/-- C1. When every fragment is answered with a successful response and every
fetch settles at some point of the completion order, `loadComponents` assigns
the container exactly once, and the value is the concatenation of the bodies in
the declaration order of the names, whatever the completion order is. -/
theorem loadComponents_in_order (names : List String) (version : Nat)
    (fetch : String → FetchResult) (order : List Nat) (initial : String)
    (status : String → Nat) (statusText body : String → String)
    (hok : ∀ n ∈ names,
      fetch (componentUrl n version) = .response true (status n) (statusText n) (body n))
    (hsettle : ∀ i, i < names.length → i ∈ order) :
    loadComponents (some initial) names version fetch order
        = some [String.join (names.map body)]
      ∧ (loadComponents (some initial) names version fetch order).map (finalContent initial)
        = some (String.join (names.map body)) := by
  have hres : names.map (fetchComponent fetch version)
      = (names.map body).map (Except.ok : String → Except String String) := by
    rw [List.map_map]
    apply List.map_congr_left
    intro n hn
    simp [fetchComponent, hok n hn]
  have hw : loadComponents (some initial) names version fetch order
      = some [String.join (names.map body)] := by
    unfold loadComponents promiseAll
    rw [hres]
    cases hnames : names with
    | nil => simp
    | cons n0 ns =>
      have hlen : 0 < names.length := by rw [hnames]; simp
      rw [← hnames]
      have hne : ((names.map body).map (Except.ok : String → Except String String)).isEmpty
          = false := by
        rw [hnames]; rfl
      simp only [hne, Bool.false_eq_true, if_false]
      rw [promiseAllLoop_fulfilled (names.map body) order]
      · simp
      · intro i v hi
        rw [List.getElem?_replicate] at hi
        split at hi <;> simp at hi
      · intro i hi
        rw [List.getElem?_replicate] at hi
        split at hi
        · rename_i h; apply hsettle; simpa using h
        · simp at hi
      · exact ⟨0, by rw [List.getElem?_replicate]; simp [hlen]⟩
  exact ⟨hw, by rw [hw]; rfl⟩

/-- C1, evaluated: fragments `a`, `b`, `c` with bodies `<X/>`, `<Y/>`, `<Z/>`,
completing in the order `c`, `a`, `b`. -/
theorem loadComponents_in_order_witness :
    (∀ n ∈ ["a", "b", "c"],
        abcFetch (componentUrl n 7) = .response true 200 "OK" (abcBody n))
      ∧ loadComponents (some "") ["a", "b", "c"] 7 abcFetch [2, 0, 1]
        = some [String.join (["a", "b", "c"].map abcBody)]
      ∧ String.join (["a", "b", "c"].map abcBody) = "<X/><Y/><Z/>" :=
  have h : ∀ n ∈ ["a", "b", "c"],
      abcFetch (componentUrl n 7) = .response true 200 "OK" (abcBody n) := by decide
  ⟨h, (loadComponents_in_order ["a", "b", "c"] 7 abcFetch [2, 0, 1] ""
        (fun _ => 200) (fun _ => "OK") abcBody h (by decide)).1, by decide⟩

/-- C2. When the fetch of some fragment fails (it rejects, or its response has
`ok` false) and that failure occurs in the completion order, `loadComponents`
assigns the container exactly once and the value is the error notice: the
concatenation of the fetched bodies is never written. -/
theorem loadComponents_fail_fast (names : List String) (version : Nat)
    (fetch : String → FetchResult) (order : List Nat) (initial : String)
    (i : Nat) (hi : i < names.length)
    (hfail : (∃ msg, fetch (componentUrl names[i] version) = .networkError msg)
      ∨ (∃ status statusText body,
          fetch (componentUrl names[i] version) = .response false status statusText body))
    (hsettle : i ∈ order) :
    loadComponents (some initial) names version fetch order = some [errorNotice]
      ∧ (loadComponents (some initial) names version fetch order).map (finalContent initial)
        = some errorNotice := by
  have hres : ∃ e, (names.map (fetchComponent fetch version))[i]? = some (.error e) := by
    rw [List.getElem?_map, List.getElem?_eq_getElem hi]
    rcases hfail with ⟨msg, h⟩ | ⟨status, statusText, body, h⟩
    · exact ⟨msg, by simp [fetchComponent, h]⟩
    · exact ⟨_, by simp [fetchComponent, h]; rfl⟩
  obtain ⟨e, he⟩ := hres
  have hw : loadComponents (some initial) names version fetch order = some [errorNotice] := by
    unfold loadComponents promiseAll
    have hne : (names.map (fetchComponent fetch version)).isEmpty = false := by
      cases names with
      | nil => simp at hi
      | cons n0 ns => rfl
    simp only [hne, Bool.false_eq_true, if_false]
    obtain ⟨r, hr⟩ := promiseAllLoop_rejected (names.map (fetchComponent fetch version)) i e he
      order (List.replicate (names.map (fetchComponent fetch version)).length none)
      (by rw [List.getElem?_replicate]; simp [hi]) hsettle
    rw [hr]
  exact ⟨hw, by rw [hw]; rfl⟩

/-- C2, evaluated: fragment `b` answers 404 and settles last, after the bodies
of `a` and `c` have arrived; the only value written is the error notice. -/
theorem loadComponents_fail_fast_witness :
    (∃ status statusText body,
        acFetch (componentUrl (["a", "b", "c"].get ⟨1, by decide⟩) 7)
          = .response false status statusText body)
      ∧ loadComponents (some "") ["a", "b", "c"] 7 acFetch [0, 2, 1] = some [errorNotice] :=
  have h : ∃ status statusText body,
      acFetch (componentUrl (["a", "b", "c"].get ⟨1, by decide⟩) 7)
        = .response false status statusText body := ⟨404, "Not Found", "", by decide⟩
  ⟨h, (loadComponents_fail_fast ["a", "b", "c"] 7 acFetch [0, 2, 1] "" 1 (by decide)
        (Or.inr h) (by decide)).1⟩

/-! ## Properties of the theme toggle -/

/-- C3 as stated fails: with nothing stored under `color-theme` (and a light
system preference), two clicks leave `light` in the storage, not the original
absence of a value. -/
theorem theme_toggle_not_round_trip :
    (click (click (boot emptyStorage false))).storage.getItem "color-theme" = some "light"
      ∧ (boot emptyStorage false).storage.getItem "color-theme" = none
      ∧ (click (click (boot emptyStorage false))).storage.getItem "color-theme"
        ≠ (boot emptyStorage false).storage.getItem "color-theme" := by
  decide

/-- C3, amended. For every stored content and system preference: two clicks
restore the mode (`isDarkMode` and the class `dark` of the root element); the
value stored after two clicks is `dark` when the initial mode is dark and
`light` otherwise, so it equals the original stored value whenever that value
was `dark` or `light`; and after each single click the stored value is `dark`
exactly when the mode passed to `applyTheme` is dark. -/
theorem theme_toggle_round_trip (storage : Storage) (prefersDark : Bool) :
    (click (click (boot storage prefersDark))).isDarkMode = (boot storage prefersDark).isDarkMode
      ∧ (click (click (boot storage prefersDark))).rootDark = (boot storage prefersDark).rootDark
      ∧ (click (click (boot storage prefersDark))).storage.getItem "color-theme"
          = some (if (boot storage prefersDark).isDarkMode then "dark" else "light")
      ∧ ((storage.getItem "color-theme" = some "dark"
            ∨ storage.getItem "color-theme" = some "light") →
          (click (click (boot storage prefersDark))).storage.getItem "color-theme"
            = storage.getItem "color-theme")
      ∧ ∀ t : Theme, ((click t).storage.getItem "color-theme" = some "dark"
          ↔ (click t).rootDark = true) := by
  refine ⟨?_, ?_, ?_, ?_, ?_⟩
  · simp [click, applyTheme]
  · simp [click, applyTheme, boot]
  · cases h : (boot storage prefersDark).isDarkMode <;>
      simp [click, applyTheme, Storage.setItem, Storage.getItem, h]
  · intro hs
    have hb : (boot storage prefersDark).isDarkMode = initialIsDarkMode storage prefersDark := rfl
    rcases hs with hs | hs
    · have hd : initialIsDarkMode storage prefersDark = true := by
        simp [initialIsDarkMode, hs]
      simp [click, applyTheme, Storage.setItem, Storage.getItem, hb, hd]
      simpa [Storage.getItem] using hs.symm
    · have hd : initialIsDarkMode storage prefersDark = false := by
        simp [initialIsDarkMode, hs, Storage.has]
        simp [Storage.getItem] at hs
        simp [hs]
      simp [click, applyTheme, Storage.setItem, Storage.getItem, hb, hd]
      simpa [Storage.getItem] using hs.symm
  · intro t
    cases h : t.isDarkMode <;> simp [click, applyTheme, Storage.setItem, Storage.getItem, h]

/-- C3, amended, evaluated on a storage that holds `light`: two clicks leave
`light` in the storage. -/
theorem theme_toggle_round_trip_witness :
    lightStorage.getItem "color-theme" = some "light"
      ∧ (click (click (boot lightStorage true))).storage.getItem "color-theme"
          = lightStorage.getItem "color-theme" :=
  ⟨by decide, (theme_toggle_round_trip lightStorage true).2.2.2.1 (Or.inr (by decide))⟩

/-! ## Properties of the generator -/

theorem mulberry32_lt (seed : Nat) : (mulberry32 seed).1 < 4294967296 := by
  unfold mulberry32 toUint32
  exact Nat.mod_lt _ (by norm_num)

theorem rand_nonneg (F : Type) [LinearOrderedField F] (seed : Nat) : 0 ≤ (rand F seed).1 := by
  unfold rand
  positivity

theorem rand_lt_one (F : Type) [LinearOrderedField F] (seed : Nat) : (rand F seed).1 < 1 := by
  unfold rand
  rw [div_lt_one (by norm_num)]
  have h := mulberry32_lt seed
  exact_mod_cast h

/-- C10. For every generator seed and every `n`, the `n`-th value returned by
`rand()` is a natural number below `2^32` divided by `2^32`, so it lies in
`[0, 1)`, and the radius factor `0.4 + 0.6 * r` of `randInSphere` lies in
`[0.4, 1)`. -/
theorem randNth_unit_interval (F : Type) [LinearOrderedField F] (seed n : Nat) :
    (∃ u : Nat, u < 2 ^ 32 ∧ randNth F seed n = (u : F) / 4294967296)
      ∧ 0 ≤ randNth F seed n ∧ randNth F seed n < 1
      ∧ (0.4 : F) ≤ 0.4 + 0.6 * randNth F seed n ∧ 0.4 + 0.6 * randNth F seed n < 1 := by
  have h0 : 0 ≤ randNth F seed n := rand_nonneg F _
  have h1 : randNth F seed n < 1 := rand_lt_one F _
  refine ⟨⟨(mulberry32 (seedAfter (n - 1) seed)).1, ?_, rfl⟩, h0, h1, ?_, ?_⟩
  · have := mulberry32_lt (seedAfter (n - 1) seed)
    norm_num
    exact this
  · norm_num
    exact h0
  · norm_num
    linarith

/-- The first four values of the generator seeded with `0xA11CE`. -/
theorem mulberry32_first_values :
    mulberry32 0xA11CE = (3191830399, 1832225731)
      ∧ mulberry32 1832225731 = (2415238474, 3663791544)
      ∧ mulberry32 3663791544 = (958955856, 5495357357)
      ∧ mulberry32 5495357357 = (3259582577, 7326923170) := by
  decide

/-! ## Properties of the edge construction -/

section EdgeProperties

variable {F : Type} [LinearOrderedField F] [MathSqrt F]

omit [MathSqrt F] in
/-- The inner loop keeps, of the candidates that pass the distance and index
test, the first `k - added` in the order of the sorted array. -/
theorem addEdges_eq_take_filter (i : Nat) (l : List (Nat × F)) (added : Nat) :
    addEdges i l added
      = ((l.filter fun jd => decide (jd.2 ≤ maxEdge ∧ i < jd.1)).take (k - added)).map
          fun jd => (i, jd.1) := by
  induction l generalizing added with
  | nil => simp [addEdges]
  | cons jd rest ih =>
    obtain ⟨j, d⟩ := jd
    unfold addEdges
    by_cases hk : added < k
    · simp only [hk, if_true]
      by_cases hp : d ≤ maxEdge ∧ i < j
      · have hsub : k - added = (k - (added + 1)) + 1 := by omega
        simp only [hp, and_self, if_true, List.filter_cons, decide_True, ih (added + 1)]
        rw [hsub, List.take_succ_cons, List.map_cons]
      · simp only [hp, if_false, List.filter_cons, decide_False, ih added]
        simp
    · have hz : k - added = 0 := by omega
      simp [hk, hz]

theorem mem_dists {nodes : List (Node F)} {i : Nat} {ni : Node F} {jd : Nat × F}
    (h : jd ∈ dists nodes i ni) : jd.1 < nodes.length ∧ i ≠ jd.1 := by
  unfold dists at h
  rw [List.mem_map] at h
  obtain ⟨jn, hjn, rfl⟩ := h
  rw [List.mem_filter] at hjn
  obtain ⟨hmem, hne⟩ := hjn
  obtain ⟨j, n⟩ := jn
  exact ⟨(List.mem_enum hmem).1, by simpa using hne⟩

omit [MathSqrt F] in
theorem mem_sortDists {l : List (Nat × F)} {jd : Nat × F} :
    jd ∈ sortDists l ↔ jd ∈ l :=
  (List.perm_insertionSort _ l).mem_iff

theorem mem_edgesOf {nodes : List (Node F)} {i : Nat} {ni : Node F} {e : Nat × Nat}
    (h : e ∈ edgesOf nodes i ni) : e.1 = i ∧ i < e.2 ∧ e.2 < nodes.length := by
  unfold edgesOf at h
  rw [addEdges_eq_take_filter, List.mem_map] at h
  obtain ⟨jd, hjd, rfl⟩ := h
  have hf := List.mem_of_mem_take hjd
  rw [List.mem_filter] at hf
  obtain ⟨hs, hp⟩ := hf
  have hd := mem_dists (mem_sortDists.1 hs)
  simp only [decide_eq_true_eq] at hp
  exact ⟨rfl, hp.2, hd.1⟩

theorem length_edgesOf_le (nodes : List (Node F)) (i : Nat) (ni : Node F) :
    (edgesOf nodes i ni).length ≤ k := by
  unfold edgesOf
  rw [addEdges_eq_take_filter, List.length_map, List.length_take]
  exact Nat.min_le_left _ _

/-- C4. For every node list, the edge list has at most `C * k` entries, `C`
being the number of nodes and `k = 3`, and every entry `(i, j)` has
`i < j < C`. -/
theorem edges_bounds (nodes : List (Node F)) :
    (edges nodes).length ≤ nodes.length * 3
      ∧ ∀ e ∈ edges nodes, e.1 < e.2 ∧ e.2 < nodes.length ∧ e.1 < nodes.length ∧ e.1 ≠ e.2 := by
  constructor
  · unfold edges
    rw [List.length_flatMap]
    have h := List.sum_le_card_nsmul
      (List.map (List.length ∘ fun ini : Nat × Node F => edgesOf nodes ini.1 ini.2) nodes.enum) 3
      (by
        intro x hx
        rw [List.mem_map] at hx
        obtain ⟨ini, _, rfl⟩ := hx
        exact length_edgesOf_le nodes ini.1 ini.2)
    simpa using h
  · intro e he
    unfold edges at he
    rw [List.mem_flatMap] at he
    obtain ⟨ini, _, hmem⟩ := he
    obtain ⟨h1, h2, h3⟩ := mem_edgesOf hmem
    rw [h1]
    exact ⟨h2, h3, by omega, by omega⟩

end EdgeProperties

theorem sqrt_mul_self_nonneg {F : Type} [LinearOrderedField F] [MathSqrt F] [LawfulSqrt F]
    (a : F) (ha : 0 ≤ a) : MathSqrt.sqrt (a * a) = a := by
  have h1 := LawfulSqrt.sqrt_nonneg (a * a)
  have h2 := LawfulSqrt.sqrt_mul_self (a * a) (mul_self_nonneg a)
  exact (mul_self_inj h1 ha).1 h2

theorem axis_distanceTo (a b : ℝ) (h : b ≤ a) :
    (axisNode a).position.distanceTo (axisNode b).position = a - b := by
  simp only [Vector3.distanceTo, Vector3.distanceToSquared, axisNode]
  have : (a - b) * (a - b) + (0 - 0) * (0 - 0) + (0 - 0) * (0 - 0) = (a - b) * (a - b) := by ring
  rw [this]
  exact sqrt_mul_self_nonneg (a - b) (by linarith)

theorem axis_distanceTo_rev (a b : ℝ) (h : a ≤ b) :
    (axisNode a).position.distanceTo (axisNode b).position = b - a := by
  simp only [Vector3.distanceTo, Vector3.distanceToSquared, axisNode]
  have : (a - b) * (a - b) + (0 - 0) * (0 - 0) + (0 - 0) * (0 - 0) = (b - a) * (b - a) := by ring
  rw [this]
  exact sqrt_mul_self_nonneg (b - a) (by linarith)

theorem lineNodes_dists :
    dists lineNodes 3 (axisNode 3) = [(0, 3), (1, 2), (2, 1), (4, 97)] := by
  simp only [dists, lineNodes, List.enum, List.enumFrom, List.filter, List.map]
  rw [axis_distanceTo 3 0 (by norm_num), axis_distanceTo 3 1 (by norm_num),
    axis_distanceTo 3 2 (by norm_num), axis_distanceTo_rev 3 100 (by norm_num)]
  norm_num

theorem lineNodes_sorted :
    sortDists (dists lineNodes 3 (axisNode 3)) = [(2, 1), (1, 2), (0, 3), (4, 97)] := by
  rw [lineNodes_dists]
  simp [sortDists, List.insertionSort, List.orderedInsert]
  norm_num

/-- C9 as stated fails: among five nodes on a line, the fourth node is given an
edge to the fifth, at distance 97, although its three nearest neighbours are
the nodes 2, 1 and 0: the loop counts kept edges, not inspected candidates. -/
theorem edges_not_among_three_nearest :
    (3, 4) ∈ edges lineNodes
      ∧ ((sortDists (dists lineNodes 3 (axisNode 3))).take 3).map Prod.fst = [2, 1, 0]
      ∧ 4 ∉ ((sortDists (dists lineNodes 3 (axisNode 3))).take 3).map Prod.fst := by
  refine ⟨?_, ?_, ?_⟩
  · unfold edges
    rw [List.mem_flatMap]
    refine ⟨(3, axisNode 3), by simp [lineNodes, List.enum, List.enumFrom], ?_⟩
    show (3, 4) ∈ addEdges 3 (sortDists (dists lineNodes 3 (axisNode 3))) 0
    rw [lineNodes_sorted]
    simp [addEdges, k, maxEdge]
    norm_num
  · rw [lineNodes_sorted]; rfl
  · rw [lineNodes_sorted]; decide
/-- C9, amended. The edges kept for node `i` are the first three, in ascending
order of distance, of the other nodes that pass the filter (distance to `i` at
most `maxEdge` and index greater than `i`); fewer when fewer pass. Every kept
edge `(i, j)` has `i < j` and a distance of at most `maxEdge`. Node `j` need not
be one of the three nearest neighbours of `i`. -/
theorem edgesOf_nearest_passing {F : Type} [LinearOrderedField F] [MathSqrt F]
    (nodes : List (Node F)) (i : Nat) (ni : Node F) :
    edgesOf nodes i ni
        = (((sortDists (dists nodes i ni)).filter
              fun jd => decide (jd.2 ≤ maxEdge ∧ i < jd.1)).take 3).map (fun jd => (i, jd.1))
      ∧ (sortDists (dists nodes i ni)).Sorted (fun a b => a.2 ≤ b.2)
      ∧ (sortDists (dists nodes i ni)).Perm (dists nodes i ni)
      ∧ (∀ jd ∈ dists nodes i ni, jd.1 ≠ i ∧
          ∃ nj, nodes[jd.1]? = some nj ∧ jd.2 = ni.position.distanceTo nj.position)
      ∧ ∀ e ∈ edgesOf nodes i ni, e.1 = i ∧ i < e.2 ∧
          ∃ nj, nodes[e.2]? = some nj ∧ ni.position.distanceTo nj.position ≤ maxEdge := by
  have hd : ∀ jd ∈ dists nodes i ni, jd.1 ≠ i ∧
      ∃ nj, nodes[jd.1]? = some nj ∧ jd.2 = ni.position.distanceTo nj.position := by
    intro jd hjd
    refine ⟨fun h => (mem_dists hjd).2 h.symm, ?_⟩
    unfold dists at hjd
    rw [List.mem_map] at hjd
    obtain ⟨jn, hjn, rfl⟩ := hjd
    rw [List.mem_filter] at hjn
    obtain ⟨j, n⟩ := jn
    have := List.mem_enum hjn.1
    exact ⟨n, by rw [List.getElem?_eq_getElem this.1]; exact congrArg some this.2.symm, rfl⟩
  refine ⟨addEdges_eq_take_filter i _ 0, ?_, List.perm_insertionSort _ _, hd, ?_⟩
  · haveI : IsTotal (Nat × F) (fun a b => a.2 ≤ b.2) := ⟨fun a b => le_total a.2 b.2⟩
    haveI : IsTrans (Nat × F) (fun a b => a.2 ≤ b.2) := ⟨fun _ _ _ hab hbc => le_trans hab hbc⟩
    exact List.sorted_insertionSort _ _
  · intro e he
    have hb := mem_edgesOf he
    refine ⟨hb.1, hb.2.1, ?_⟩
    unfold edgesOf at he
    rw [addEdges_eq_take_filter, List.mem_map] at he
    obtain ⟨jd, hjd, rfl⟩ := he
    have hf := List.mem_of_mem_take hjd
    rw [List.mem_filter] at hf
    obtain ⟨hs, hp⟩ := hf
    simp only [decide_eq_true_eq] at hp
    obtain ⟨_, nj, hnj, hdist⟩ := hd jd (mem_sortDists.1 hs)
    exact ⟨nj, hnj, by rw [← hdist]; exact hp.1⟩

/-! ## Properties of the seeding -/

section SeedingProperties

variable {F : Type} [LinearOrderedField F] [MathSqrt F]

theorem distanceTo_comm (a b : Vector3 F) : a.distanceTo b = b.distanceTo a := by
  unfold Vector3.distanceTo Vector3.distanceToSquared
  congr 1
  ring

theorem not_tooClose {nodes : List (Node F)} {p : Vector3 F} (h : tooClose nodes p = false) :
    ∀ n ∈ nodes, minSep ≤ p.distanceTo n.position := by
  intro n hn
  unfold tooClose at h
  rw [List.any_eq_false] at h
  have := h n hn
  simpa using this

/-- The node loop only appends nodes that are at least `minSep` away from all
nodes accepted before, and stops with exactly `count` nodes when it starts
below `count`. -/
theorem seedNodes_separated (count : Nat) :
    ∀ (fuel : Nat) (nodes : List (Node F)) (seed : Nat) (r : List (Node F) × Nat),
      seedNodes count fuel nodes seed = some r →
      nodes.Pairwise (fun a b => minSep ≤ b.position.distanceTo a.position) →
      r.1.Pairwise (fun a b => minSep ≤ b.position.distanceTo a.position)
        ∧ (nodes.length ≤ count → r.1.length = count) := by
  intro fuel
  induction fuel with
  | zero => intro nodes seed r h; simp [seedNodes] at h
  | succ fuel ih =>
    intro nodes seed r h hp
    unfold seedNodes at h
    by_cases hlen : nodes.length < count
    · simp only [hlen, if_true] at h
      cases hs : (randInSphere fuel seed : Option (Vector3 F × Nat)) with
      | none => rw [hs] at h; simp at h
      | some ps =>
        obtain ⟨p, seed1⟩ := ps
        rw [hs] at h
        simp only at h
        cases hc : tooClose nodes p with
        | true =>
          simp only [hc, Bool.not_true, Bool.false_eq_true, if_false] at h
          exact ih _ _ _ h hp
        | false =>
          simp only [hc, Bool.not_false, if_true] at h
          have := ih _ _ _ h (by
            rw [List.pairwise_append]
            refine ⟨hp, List.pairwise_singleton _ _, ?_⟩
            intro a ha b hb
            rw [List.mem_singleton] at hb
            subst hb
            exact not_tooClose hc a ha)
          refine ⟨this.1, fun _ => this.2 ?_⟩
          simp
          omega
    · simp only [hlen, if_false, Option.some.injEq] at h
      subst h
      exact ⟨hp, fun hle => by simp only; omega⟩

/-- C7. When the node loop finishes, it has produced exactly the requested
number of nodes, and every two distinct nodes are at distance at least
`minSep = 18` from each other. -/
theorem seeding_separated (count fuel seed : Nat) (nodes : List (Node F)) (seed1 : Nat)
    (h : seedNodes count fuel [] seed = some (nodes, seed1)) :
    nodes.length = count
      ∧ ∀ (i j : Nat) (hi : i < nodes.length) (hj : j < nodes.length), i ≠ j →
          (18 : F) ≤ nodes[i].position.distanceTo nodes[j].position := by
  have hs := seedNodes_separated count fuel [] seed (nodes, seed1) h List.Pairwise.nil
  refine ⟨hs.2 (Nat.zero_le _), ?_⟩
  intro i j hi hj hij
  have hp := hs.1
  rcases Nat.lt_or_gt_of_ne hij with hlt | hgt
  · have := List.pairwise_iff_getElem.1 hp i j hi hj hlt
    rw [distanceTo_comm]
    exact this
  · exact List.pairwise_iff_getElem.1 hp j i hj hi hgt

theorem randInSphere_mono :
    ∀ (fuel fuel1 seed : Nat) (r : Vector3 F × Nat),
      randInSphere fuel seed = some r → fuel ≤ fuel1 → randInSphere fuel1 seed = some r := by
  intro fuel
  induction fuel with
  | zero => intro fuel1 seed r h; simp [randInSphere] at h
  | succ fuel ih =>
    intro fuel1 seed r h hle
    obtain ⟨g, rfl⟩ : ∃ g, fuel1 = g + 1 := ⟨fuel1 - 1, by omega⟩
    unfold randInSphere at h ⊢
    simp only at h ⊢
    split
    · rename_i hc
      rw [if_pos hc] at h
      exact ih _ _ _ h (by omega)
    · rename_i hc
      rw [if_neg hc] at h
      exact h

theorem seedNodes_mono (count : Nat) :
    ∀ (fuel fuel1 : Nat) (nodes : List (Node F)) (seed : Nat) (r : List (Node F) × Nat),
      seedNodes count fuel nodes seed = some r → fuel ≤ fuel1 →
      seedNodes count fuel1 nodes seed = some r := by
  intro fuel
  induction fuel with
  | zero => intro fuel1 nodes seed r h; simp [seedNodes] at h
  | succ fuel ih =>
    intro fuel1 nodes seed r h hle
    obtain ⟨g, rfl⟩ : ∃ g, fuel1 = g + 1 := ⟨fuel1 - 1, by omega⟩
    unfold seedNodes at h ⊢
    by_cases hlen : nodes.length < count
    · simp only [hlen, if_true] at h ⊢
      cases hs : (randInSphere fuel seed : Option (Vector3 F × Nat)) with
      | none => rw [hs] at h; simp at h
      | some ps =>
        rw [hs] at h
        rw [randInSphere_mono fuel g seed ps hs (by omega)]
        obtain ⟨p, seed1⟩ := ps
        simp only at h ⊢
        cases hc : tooClose nodes p with
        | true =>
          simp only [hc, Bool.not_true, Bool.false_eq_true, if_false] at h ⊢
          exact ih _ _ _ _ h (by omega)
        | false =>
          simp only [hc, Bool.not_false, if_true] at h ⊢
          exact ih _ _ _ _ h (by omega)
    · simp only [hlen, if_false] at h ⊢
      exact h

/-- C8. Two runs of the seeding phase that start the generator from the same
seed and finish produce the same node list (positions and velocities, in the
same order), the same edge list and the same generator state, whatever the
viewport, the pointer position and the clock of the host are and however many
rounds each run was allowed. -/
theorem seeding_deterministic (host1 host2 : Host F) (count fuel1 fuel2 seed : Nat)
    (a1 a2 : Animator F)
    (h1 : seeding host1 count fuel1 seed = some a1)
    (h2 : seeding host2 count fuel2 seed = some a2) :
    a1.nodes = a2.nodes ∧ a1.edges = a2.edges ∧ a1.seed = a2.seed := by
  unfold seeding at h1 h2
  cases hs1 : (seedNodes count fuel1 [] seed : Option (List (Node F) × Nat)) with
  | none => rw [hs1] at h1; simp at h1
  | some r1 =>
    cases hs2 : (seedNodes count fuel2 [] seed : Option (List (Node F) × Nat)) with
    | none => rw [hs2] at h2; simp at h2
    | some r2 =>
      have e1 := seedNodes_mono count fuel1 (max fuel1 fuel2) [] seed r1 hs1 (le_max_left _ _)
      have e2 := seedNodes_mono count fuel2 (max fuel1 fuel2) [] seed r2 hs2 (le_max_right _ _)
      have hr : r1 = r2 := by
        rw [e1] at e2
        exact Option.some.inj e2
      subst hr
      rw [hs1] at h1
      rw [hs2] at h2
      obtain ⟨nodes, s⟩ := r1
      simp only [Option.some.injEq] at h1 h2
      subst h1
      subst h2
      exact ⟨rfl, rfl, rfl⟩

end SeedingProperties

/-! ## Lengths under an exact square root -/

section Lengths

variable {F : Type} [LinearOrderedField F] [MathSqrt F] [LawfulSqrt F]

theorem sqrt_le_of_le_mul_self {x c : F} (hx : 0 ≤ x) (hc : 0 ≤ c) (h : x ≤ c * c) :
    MathSqrt.sqrt x ≤ c := by
  by_contra hlt
  push_neg at hlt
  have h1 := mul_self_lt_mul_self hc hlt
  rw [LawfulSqrt.sqrt_mul_self x hx] at h1
  exact absurd h (not_le.2 h1)

end Lengths
/-! ## Containment and the velocity band -/

section Containment

variable {F : Type} [LinearOrderedField F] [MathSqrt F] [LawfulSqrt F]

end Containment
/-! ## Evaluating the seeding from the seed `0xA11CE` -/

section Evaluation

variable {F : Type} [LinearOrderedField F] [MathSqrt F]

omit [MathSqrt F] in
theorem rand_eq {seed u s : Nat} (h : mulberry32 seed = (u, s)) :
    rand F seed = ((u : F) / 4294967296, s) := by
  unfold rand
  rw [h]

theorem randInSphere_reject (fuel seed s1 s2 s3 : Nat) (a1 a2 a3 : F)
    (h1 : rand F seed = (a1, s1)) (h2 : rand F s1 = (a2, s2)) (h3 : rand F s2 = (a3, s3))
    (hs : 1 < sampleSq a1 a2 a3) :
    randInSphere (fuel + 1) seed = (randInSphere fuel s3 : Option (Vector3 F × Nat)) := by
  unfold sampleSq at hs
  rw [randInSphere]
  simp only [h1, h2, h3]
  rw [if_pos (Or.inr hs)]

theorem randInSphere_accept (fuel seed s1 s2 s3 s4 : Nat) (a1 a2 a3 a4 : F)
    (h1 : rand F seed = (a1, s1)) (h2 : rand F s1 = (a2, s2)) (h3 : rand F s2 = (a3, s3))
    (h4 : rand F s3 = (a4, s4))
    (hs0 : sampleSq a1 a2 a3 ≠ 0) (hs1 : sampleSq a1 a2 a3 ≤ 1) :
    randInSphere (fuel + 1) seed = some (spherePoint a1 a2 a3 a4, s4) := by
  unfold sampleSq at hs0 hs1
  rw [randInSphere]
  simp only [h1, h2, h3, h4]
  rw [if_neg (by push_neg; exact ⟨hs0, hs1⟩)]
  rfl

theorem seedNodes_accept (count fuel seed seed1 t1 t2 t3 : Nat) (nodes : List (Node F))
    (p : Vector3 F) (b1 b2 b3 : F) (hlen : nodes.length < count)
    (hr : randInSphere fuel seed = some (p, seed1)) (hc : tooClose nodes p = false)
    (h1 : rand F seed1 = (b1, t1)) (h2 : rand F t1 = (b2, t2)) (h3 : rand F t2 = (b3, t3)) :
    seedNodes count (fuel + 1) nodes seed
      = seedNodes count fuel (nodes ++ [⟨p, initialVelocity b1 b2 b3⟩]) t3 := by
  rw [seedNodes]
  simp only [hlen, if_true, hr, hc, Bool.not_false, h1, h2, h3]
  rfl

theorem seedNodes_done (count fuel seed : Nat) (nodes : List (Node F))
    (hlen : ¬ nodes.length < count) :
    seedNodes count (fuel + 1) nodes seed = some (nodes, seed) := by
  rw [seedNodes]
  simp only [hlen, if_false]

end Evaluation

section EvaluationTwo

variable {F : Type} [LinearOrderedField F] [MathSqrt F] [LawfulSqrt F]

theorem le_sqrt_of_mul_self_le {x c : F} (hc : c * c ≤ x) :
    c ≤ MathSqrt.sqrt x := by
  by_contra hlt
  push_neg at hlt
  have hx : 0 ≤ x := le_trans (mul_self_nonneg c) hc
  have h1 := mul_self_lt_mul_self (LawfulSqrt.sqrt_nonneg x) hlt
  rw [LawfulSqrt.sqrt_mul_self x hx] at h1
  exact absurd hc (not_le.2 h1)

/-- The second sampled point is not too close to the first: their first
coordinates already differ by more than `minSep`. -/
theorem seedNode1_not_tooClose :
    tooClose [seedNode0 F] (seedNode1 F).position = false := by
  have hx0 : 0 ≤ (seedNode0 F).position.x := by
    simp only [seedNode0, spherePoint, Vector3.multiplyScalar, radius]
    apply mul_nonneg
    · apply div_nonneg
      · norm_num
      · exact LawfulSqrt.sqrt_nonneg _
    · norm_num
  have hx1 : (seedNode1 F).position.x ≤ -72 := by
    simp only [seedNode1, spherePoint, Vector3.multiplyScalar, radius]
    set s : F := sampleSq (763181677 / 4294967296) (1272136629 / 4294967296)
      (829018950 / 4294967296) with hs
    have hs1 : s ≤ 1 := by rw [hs]; unfold sampleSq; norm_num
    have hs0 : 0 < s := by rw [hs]; unfold sampleSq; norm_num
    have hl1 : MathSqrt.sqrt s ≤ 1 := sqrt_le_of_le_mul_self (le_of_lt hs0) (by norm_num)
      (by norm_num; exact hs1)
    have hl0 : 0 < MathSqrt.sqrt s := by
      have hn := LawfulSqrt.sqrt_nonneg s
      have hm := LawfulSqrt.sqrt_mul_self s (le_of_lt hs0)
      rcases eq_or_lt_of_le hn with h | h
      · rw [← h, mul_zero] at hm
        exact absurd hm (ne_of_lt hs0)
      · exact h
    have hq : (763181677 / 4294967296 * 2 - 1) / MathSqrt.sqrt s
        ≤ (763181677 / 4294967296 * 2 - 1 : F) := by
      rw [div_le_iff₀ hl0]
      have hneg : (763181677 / 4294967296 * 2 - 1 : F) < 0 := by norm_num
      nlinarith
    have hq1 : (763181677 / 4294967296 * 2 - 1 : F) ≤ -(64 / 100) := by norm_num
    have hc : (112 : F) ≤ 280 * (0.4 + 0.6 * (3506929025 / 4294967296)) := by norm_num
    nlinarith
  unfold tooClose
  simp only [List.any_cons, List.any_nil, Bool.or_false, decide_eq_false_iff_not, not_lt]
  unfold minSep Vector3.distanceTo Vector3.distanceToSquared
  apply le_sqrt_of_mul_self_le
  simp only
  have h2 := mul_self_nonneg ((seedNode1 F).position.y - (seedNode0 F).position.y)
  have h3 := mul_self_nonneg ((seedNode1 F).position.z - (seedNode0 F).position.z)
  nlinarith

/-- The node loop for two nodes, started from the seed `0xA11CE`: the first
sample is accepted, eight samples are rejected by the `do ... while` loop, and
the tenth sample becomes the second node, after 38 calls of the generator. -/
theorem seedNodes_two :
    seedNodes 2 12 ([] : List (Node F)) 0xA11CE
      = some ([seedNode0 F, seedNode1 F], 69600160812) := by
  have m1 : rand F 659918 = ((3191830399 : F) / 4294967296, 1832225731) := rand_eq (by decide)
  have m2 : rand F 1832225731 = ((2415238474 : F) / 4294967296, 3663791544) := rand_eq (by decide)
  have m3 : rand F 3663791544 = ((958955856 : F) / 4294967296, 5495357357) := rand_eq (by decide)
  have m4 : rand F 5495357357 = ((3259582577 : F) / 4294967296, 7326923170) := rand_eq (by decide)
  have m5 : rand F 7326923170 = ((2407230183 : F) / 4294967296, 9158488983) := rand_eq (by decide)
  have m6 : rand F 9158488983 = ((2496027202 : F) / 4294967296, 10990054796) := rand_eq (by decide)
  have m7 : rand F 10990054796 = ((649707001 : F) / 4294967296, 12821620609) := rand_eq (by decide)
  have m8 : rand F 12821620609 = ((238249797 : F) / 4294967296, 14653186422) := rand_eq (by decide)
  have m9 : rand F 14653186422 = ((932803546 : F) / 4294967296, 16484752235) := rand_eq (by decide)
  have m10 : rand F 16484752235 = ((2053126144 : F) / 4294967296, 18316318048) := rand_eq (by decide)
  have m11 : rand F 18316318048 = ((2866289459 : F) / 4294967296, 20147883861) := rand_eq (by decide)
  have m12 : rand F 20147883861 = ((4172236170 : F) / 4294967296, 21979449674) := rand_eq (by decide)
  have m13 : rand F 21979449674 = ((2523306903 : F) / 4294967296, 23811015487) := rand_eq (by decide)
  have m14 : rand F 23811015487 = ((4201812865 : F) / 4294967296, 25642581300) := rand_eq (by decide)
  have m15 : rand F 25642581300 = ((804149473 : F) / 4294967296, 27474147113) := rand_eq (by decide)
  have m16 : rand F 27474147113 = ((3098961017 : F) / 4294967296, 29305712926) := rand_eq (by decide)
  have m17 : rand F 29305712926 = ((466705748 : F) / 4294967296, 31137278739) := rand_eq (by decide)
  have m18 : rand F 31137278739 = ((3644997118 : F) / 4294967296, 32968844552) := rand_eq (by decide)
  have m19 : rand F 32968844552 = ((4124263388 : F) / 4294967296, 34800410365) := rand_eq (by decide)
  have m20 : rand F 34800410365 = ((3836884104 : F) / 4294967296, 36631976178) := rand_eq (by decide)
  have m21 : rand F 36631976178 = ((487726729 : F) / 4294967296, 38463541991) := rand_eq (by decide)
  have m22 : rand F 38463541991 = ((4176330645 : F) / 4294967296, 40295107804) := rand_eq (by decide)
  have m23 : rand F 40295107804 = ((726468813 : F) / 4294967296, 42126673617) := rand_eq (by decide)
  have m24 : rand F 42126673617 = ((4144813550 : F) / 4294967296, 43958239430) := rand_eq (by decide)
  have m25 : rand F 43958239430 = ((4272592344 : F) / 4294967296, 45789805243) := rand_eq (by decide)
  have m26 : rand F 45789805243 = ((97839566 : F) / 4294967296, 47621371056) := rand_eq (by decide)
  have m27 : rand F 47621371056 = ((2211028324 : F) / 4294967296, 49452936869) := rand_eq (by decide)
  have m28 : rand F 49452936869 = ((3667752008 : F) / 4294967296, 51284502682) := rand_eq (by decide)
  have m29 : rand F 51284502682 = ((3717166255 : F) / 4294967296, 53116068495) := rand_eq (by decide)
  have m30 : rand F 53116068495 = ((3653516194 : F) / 4294967296, 54947634308) := rand_eq (by decide)
  have m31 : rand F 54947634308 = ((95260899 : F) / 4294967296, 56779200121) := rand_eq (by decide)
  have m32 : rand F 56779200121 = ((763181677 : F) / 4294967296, 58610765934) := rand_eq (by decide)
  have m33 : rand F 58610765934 = ((1272136629 : F) / 4294967296, 60442331747) := rand_eq (by decide)
  have m34 : rand F 60442331747 = ((829018950 : F) / 4294967296, 62273897560) := rand_eq (by decide)
  have m35 : rand F 62273897560 = ((3506929025 : F) / 4294967296, 64105463373) := rand_eq (by decide)
  have m36 : rand F 64105463373 = ((605845489 : F) / 4294967296, 65937029186) := rand_eq (by decide)
  have m37 : rand F 65937029186 = ((3224459417 : F) / 4294967296, 67768594999) := rand_eq (by decide)
  have m38 : rand F 67768594999 = ((3900945789 : F) / 4294967296, 69600160812) := rand_eq (by decide)
  have e0 : randInSphere 11 659918
      = some ((seedNode0 F).position, 7326923170) :=
    randInSphere_accept 10 _ _ _ _ _ _ _ _ _ m1 m2 m3 m4
      (by unfold sampleSq; norm_num) (by unfold sampleSq; norm_num)
  have e1 : randInSphere 10 12821620609
      = some ((seedNode1 F).position, 64105463373) := by
    rw [randInSphere_reject 9 _ _ _ _ _ _ _ m8 m9 m10 (by unfold sampleSq; norm_num)]
    rw [randInSphere_reject 8 _ _ _ _ _ _ _ m11 m12 m13 (by unfold sampleSq; norm_num)]
    rw [randInSphere_reject 7 _ _ _ _ _ _ _ m14 m15 m16 (by unfold sampleSq; norm_num)]
    rw [randInSphere_reject 6 _ _ _ _ _ _ _ m17 m18 m19 (by unfold sampleSq; norm_num)]
    rw [randInSphere_reject 5 _ _ _ _ _ _ _ m20 m21 m22 (by unfold sampleSq; norm_num)]
    rw [randInSphere_reject 4 _ _ _ _ _ _ _ m23 m24 m25 (by unfold sampleSq; norm_num)]
    rw [randInSphere_reject 3 _ _ _ _ _ _ _ m26 m27 m28 (by unfold sampleSq; norm_num)]
    rw [randInSphere_reject 2 _ _ _ _ _ _ _ m29 m30 m31 (by unfold sampleSq; norm_num)]
    exact randInSphere_accept 1 _ _ _ _ _ _ _ _ _ m32 m33 m34 m35
      (by unfold sampleSq; norm_num) (by unfold sampleSq; norm_num)
  have l0 : ([] : List (Node F)).length < 2 := by simp
  have l1 : [seedNode0 F].length < 2 := by simp
  have l2 : ¬ [seedNode0 F, seedNode1 F].length < 2 := by simp
  rw [seedNodes_accept 2 11 _ _ _ _ _ [] _ _ _ _ l0 e0 rfl m5 m6 m7]
  show seedNodes 2 (10 + 1) [seedNode0 F] 12821620609 = _
  rw [seedNodes_accept 2 10 _ _ _ _ _ _ _ _ _ _ l1 e1 seedNode1_not_tooClose m36 m37 m38]
  exact seedNodes_done 2 9 _ _ l2

end EvaluationTwo

/-! ## Main properties of the animator -/

section AnimatorProperties

variable {F : Type} [LinearOrderedField F] [MathSqrt F] [LawfulSqrt F]

end AnimatorProperties

/-- C7, evaluated on the real numbers: the node loop for two nodes finishes from
the seed `0xA11CE`, and the two nodes are at least 18 apart. -/
theorem seeding_separated_witness :
    seedNodes 2 12 ([] : List (Node ℝ)) 0xA11CE
        = some ([seedNode0 ℝ, seedNode1 ℝ], 69600160812)
      ∧ (18 : ℝ) ≤ (seedNode0 ℝ).position.distanceTo (seedNode1 ℝ).position :=
  ⟨seedNodes_two,
    (seeding_separated 2 12 0xA11CE [seedNode0 ℝ, seedNode1 ℝ] 69600160812 seedNodes_two).2
      0 1 (by simp) (by simp) (by decide)⟩

/-- C8, evaluated on the real numbers: two hosts with different viewports,
pointers and clocks, and different numbers of allowed rounds, seed the same
nodes and edges from `0xA11CE`, while the camera aspect differs. -/
theorem seeding_deterministic_witness :
    ∃ a1 a2 : Animator ℝ,
      seeding hostA 2 12 0xA11CE = some a1 ∧ seeding hostB 2 20 0xA11CE = some a2
        ∧ a1.aspect ≠ a2.aspect
        ∧ a1.nodes = a2.nodes ∧ a1.edges = a2.edges ∧ a1.seed = a2.seed :=
  have h1 : seeding hostA 2 12 0xA11CE
      = some
        { aspect := 1280 / 720, cameraX := 0, cameraY := 0, targetX := 0, targetY := 0,
          cursorWorld := ⟨0, 0, 0⟩, hasMouse := false,
          nodes := [seedNode0 ℝ, seedNode1 ℝ], edges := edges [seedNode0 ℝ, seedNode1 ℝ],
          seed := 69600160812 } := by
    simp only [seeding, seedNodes_two, hostA]
  have h2 : seeding hostB 2 20 0xA11CE
      = some
        { aspect := 375 / 812, cameraX := 0, cameraY := 0, targetX := 0, targetY := 0,
          cursorWorld := ⟨0, 0, 0⟩, hasMouse := false,
          nodes := [seedNode0 ℝ, seedNode1 ℝ], edges := edges [seedNode0 ℝ, seedNode1 ℝ],
          seed := 69600160812 } := by
    simp only [seeding, seedNodes_mono 2 12 20 [] 0xA11CE _ seedNodes_two (by decide), hostB]
  ⟨_, _, h1, h2, by norm_num, seeding_deterministic hostA hostB 2 12 20 0xA11CE _ _ h1 h2⟩

end Portfolio
